import Mathlib

/-
Verification of the thumbnail request lifecycle manager in
src/thunar/thunar-thumbnailer.c.

The C file is embedded shallowly: the thumbnailer object becomes a `State`
record, each C function becomes a pure Lean function from a state to a new
state together with the list of externally observable effects it performs
(outbound D-Bus calls and GObject signal emissions).  `guint` arithmetic is
modelled as `Nat` with an explicit reduction modulo 2^32 where overflow can
occur (the request-id counter).
-/

namespace ThunarThumbnailer

/-- Thumbnail state of an external `ThunarFile`
(`THUNAR_FILE_THUMB_STATE_*`). -/
inductive ThumbState where
  | unknown
  | nothumb
  | ready
  | loading
  deriving DecidableEq, Repr

/-- `ThunarThumbnailerIdleType` from the C source: the kind of deferred
notification (`THUNAR_THUMBNAILER_IDLE_ERROR` / `THUNAR_THUMBNAILER_IDLE_READY`). -/
inductive IdleType where
  | error
  | ready
  deriving DecidableEq, Repr

/-- `struct _ThunarThumbnailerJob`: one record per outstanding request.
`g_slice_new0` zero-initialises, so a fresh job has `handle = 0` and
`cancelled = false`; `handle_call` models the `DBusGProxyCall *` pointer
(`true` iff the enqueue call is still in flight, i.e. the pointer is non-NULL). -/
structure Job where
  request : Nat
  handle : Nat
  cancelled : Bool
  handle_call : Bool
  deriving DecidableEq, Repr

/-- `struct _ThunarThumbnailerIdle`: a queued deferred notification carrying
the kind and the copied URI array. -/
structure IdleStruct where
  type : IdleType
  uris : List String
  deriving DecidableEq, Repr

/-- Externally observable effects of the C functions: outbound D-Bus calls
(`thunar_thumbnailer_proxy_dequeue`, `thunar_thumbnailer_proxy_queue_async`),
the `request-finished` signal emission, and writes to a file's thumb state. -/
inductive Eff where
  | dequeue (handle : Nat)
  | requestFinished (request : Nat)
  | enqueueCall (uris : List String)
  | setThumbState (uri : String) (state : ThumbState)
  deriving DecidableEq, Repr

/-- An external `ThunarFile` reference as seen by `thunar_thumbnailer_queue_files`:
its URI plus the verdict of the external eligibility oracle (content type /
URI scheme supported by the service, the part of
`thunar_thumbnailer_file_is_supported` delegated to GIO and the D-Bus cache). -/
structure ThunarFile where
  uri : String
  supported : Bool
  deriving DecidableEq, Repr

/-- The `struct _ThunarThumbnailer` instance together with the external state
it manipulates: `proxy` is whether `thumbnailer_proxy` is non-NULL, `jobs` the
`GSList *jobs` (head = most recently prepended), `last_request` the id
counter, `idles` the list of queued idle structs, `files` the external
per-URI thumbnail state, and `cache` membership in the `ThunarFile` cache
consulted by `thunar_file_cache_lookup`. -/
structure State where
  proxy : Bool
  jobs : List Job
  last_request : Nat
  idles : List IdleStruct
  files : String → ThumbState
  cache : String → Bool

/-- `guint` modulus. -/
def guintMod : Nat := 4294967296

/-- Lines 568-573: `request_no = thumbnailer->last_request + 1;
request_no = MAX (request_no, 1);` with `guint` (32-bit) addition. -/
def next_request_no (last : Nat) : Nat :=
  max ((last + 1) % guintMod) 1

/-- `thunar_thumbnailer_file_is_supported` (lines 373-439): returns false
when there is no proxy, otherwise defers to the external content-type /
URI-scheme check, abstracted as the file's `supported` field. -/
def thunar_thumbnailer_file_is_supported (s : State) (f : ThunarFile) : Bool :=
  s.proxy && f.supported

/-- `thunar_thumbnailer_queue_async` (lines 554-592): allocate the next
request id, record it in `last_request`, prepend a fresh zero-initialised job
with the in-flight call token set, and issue the asynchronous Queue call.
Returns the new state, the request id, and the effects. -/
def thunar_thumbnailer_queue_async (s : State) (uris : List String) :
    State × Nat × List Eff :=
  let request_no := next_request_no s.last_request
  ({ s with
      last_request := request_no,
      jobs := { request := request_no, handle := 0, cancelled := false,
                handle_call := true } :: s.jobs },
   request_no, [Eff.enqueueCall uris])

/-- The fill loop of `thunar_thumbnailer_queue_files` (lines 811-819) walks
the supported list from its last element to its first, setting each file's
thumb state to loading; `l` is that iteration order. -/
def set_loading_fold (fs : String → ThumbState) (l : List ThunarFile) :
    String → ThumbState :=
  l.foldl (fun acc f => fun u => if u = f.uri then ThumbState.loading else acc u) fs

/-- `thunar_thumbnailer_queue_files` (lines 759-848): abort with failure when
there is no proxy; filter the supported files; when none remain, return
failure without touching anything; otherwise set every supported file's thumb
state to loading (iterating the supported list back to front, which also
fixes the order of the URI array), then call `thunar_thumbnailer_queue_async`.
Result: new state, success flag, the request id written through the out
parameter, and the effect trace in program order. -/
def thunar_thumbnailer_queue_files (s : State) (files : List ThunarFile) :
    State × Bool × Option Nat × List Eff :=
  if s.proxy = false then (s, false, none, [])
  else
    let supported := files.filter (fun f => thunar_thumbnailer_file_is_supported s f)
    if supported.length > 0 then
      let ordered := supported.reverse
      let s1 := { s with files := set_loading_fold s.files ordered }
      let res := thunar_thumbnailer_queue_async s1 (ordered.map (fun f => f.uri))
      (res.1, true, some res.2.1,
        (ordered.map (fun f => Eff.setThumbState f.uri ThumbState.loading)) ++ res.2.2)
    else (s, false, none, [])

/-- The job-list traversal of `thunar_thumbnailer_dequeue` (lines 866-889):
find the first job with the given request id, latch `cancelled`; when the job
already has a handle, issue the Dequeue call (only if the proxy is alive) and
delete the job; break after the first match. -/
def dequeue_jobs (proxy : Bool) (request : Nat) : List Job → List Job × List Eff
  | [] => ([], [])
  | j :: rest =>
    if j.request = request then
      if j.handle ≠ 0 then
        (rest, if proxy then [Eff.dequeue j.handle] else [])
      else
        ({ j with cancelled := true } :: rest, [])
    else
      (j :: (dequeue_jobs proxy request rest).1, (dequeue_jobs proxy request rest).2)

/-- `thunar_thumbnailer_dequeue` (lines 851-894), the public cancel operation. -/
def thunar_thumbnailer_dequeue (s : State) (request : Nat) : State × List Eff :=
  ({ s with jobs := (dequeue_jobs s.proxy request s.jobs).1 },
   (dequeue_jobs s.proxy request s.jobs).2)

/-- The body of `thunar_thumbnailer_queue_async_reply` (lines 529-549) acting
on the job list; the C callback receives the job pointer, modelled here by
its (unique) request id.  `handle_call` is cleared first; a cancelled job
triggers an unconditional Dequeue call with the delivered handle value and is
removed; otherwise the handle is stored only when no delivery error occurred. -/
def reply_jobs (request handle : Nat) (err : Bool) : List Job → List Job × List Eff
  | [] => ([], [])
  | j :: rest =>
    if j.request = request then
      if j.cancelled then
        (rest, [Eff.dequeue handle])
      else if err then
        ({ j with handle_call := false } :: rest, [])
      else
        ({ j with handle_call := false, handle := handle } :: rest, [])
    else
      (j :: (reply_jobs request handle err rest).1, (reply_jobs request handle err rest).2)

/-- `thunar_thumbnailer_queue_async_reply` (lines 516-550). -/
def thunar_thumbnailer_queue_async_reply (s : State) (request handle : Nat)
    (err : Bool) : State × List Eff :=
  ({ s with jobs := (reply_jobs request handle err s.jobs).1 },
   (reply_jobs request handle err s.jobs).2)

/-- The job-list traversal of `thunar_thumbnailer_thumbnailer_finished`
(lines 491-511): find the first job whose `handle` field equals the delivered
handle, emit `request-finished` with that job's request id, delete the job,
break. -/
def finished_jobs (handle : Nat) : List Job → List Job × List Eff
  | [] => ([], [])
  | j :: rest =>
    if j.handle = handle then
      (rest, [Eff.requestFinished j.request])
    else
      (j :: (finished_jobs handle rest).1, (finished_jobs handle rest).2)

/-- `thunar_thumbnailer_thumbnailer_finished` (lines 480-512), the Finished
signal handler. -/
def thunar_thumbnailer_thumbnailer_finished (s : State) (handle : Nat) :
    State × List Eff :=
  ({ s with jobs := (finished_jobs handle s.jobs).1 },
   (finished_jobs handle s.jobs).2)

/-- `thunar_thumbnailer_idle` (lines 596-642): bail out on a NULL URI array;
otherwise scan the job list for a job whose `handle` field equals the
delivered handle, and when one exists queue exactly one idle struct carrying
the kind and the copied URI list.  No file state is touched and no outbound
call is made. -/
def thunar_thumbnailer_idle (s : State) (handle : Nat) (t : IdleType)
    (uris : Option (List String)) : State × List Eff :=
  match uris with
  | none => (s, [])
  | some l =>
    if s.jobs.any (fun j => j.handle == handle) then
      ({ s with idles := { type := t, uris := l } :: s.idles }, [])
    else (s, [])

/-- `thunar_thumbnailer_thumbnailer_ready` (lines 463-476). -/
def thunar_thumbnailer_thumbnailer_ready (s : State) (handle : Nat)
    (uris : Option (List String)) : State × List Eff :=
  thunar_thumbnailer_idle s handle IdleType.ready uris

/-- `thunar_thumbnailer_thumbnailer_error` (lines 443-459). -/
def thunar_thumbnailer_thumbnailer_error (s : State) (handle : Nat)
    (uris : Option (List String)) : State × List Eff :=
  thunar_thumbnailer_idle s handle IdleType.error uris

/-- The per-file update of `thunar_thumbnailer_idle_func` (lines 666-683):
an error notification downgrades the state to nothumb unless it is already
ready; a ready notification sets ready unconditionally. -/
def thumb_state_after (t : IdleType) (st : ThumbState) : ThumbState :=
  match t with
  | IdleType.error => if st = ThumbState.ready then st else ThumbState.nothumb
  | IdleType.ready => ThumbState.ready

/-- One iteration of the URI loop in `thunar_thumbnailer_idle_func`: look the
URI up in the file cache and, on a hit, update that file's thumb state. -/
def apply_idle_uri (cache : String → Bool) (t : IdleType)
    (fs : String → ThumbState) (u : String) : String → ThumbState :=
  if cache u then (fun v => if v = u then thumb_state_after t (fs u) else fs v)
  else fs

/-- The whole URI loop of `thunar_thumbnailer_idle_func`. -/
def apply_idle_uris (cache : String → Bool) (t : IdleType) (l : List String)
    (fs : String → ThumbState) : String → ThumbState :=
  l.foldl (apply_idle_uri cache t) fs

/-- `thunar_thumbnailer_idle_func` (lines 646-694): apply the per-file
updates for every URI of the dispatched idle struct, then unlink the idle
struct from the thumbnailer's list (first pointer match). -/
def thunar_thumbnailer_idle_func (s : State) (i : IdleStruct) : State :=
  { s with
      files := apply_idle_uris s.cache i.type i.uris s.files,
      idles := s.idles.erase i }

/-- The operations the event loop and the public callers can interleave. -/
inductive Op where
  | submit (files : List ThunarFile)
  | cancel (request : Nat)
  | reply (request : Nat) (handle : Nat) (err : Bool)
  | finish (handle : Nat)
  | notif (t : IdleType) (handle : Nat) (uris : Option (List String))
  | runIdle (i : IdleStruct)

/-- Dispatch one operation to the corresponding C function. -/
def step_op (s : State) : Op → State × List Eff
  | Op.submit files =>
    ((thunar_thumbnailer_queue_files s files).1,
     (thunar_thumbnailer_queue_files s files).2.2.2)
  | Op.cancel r => thunar_thumbnailer_dequeue s r
  | Op.reply r h e => thunar_thumbnailer_queue_async_reply s r h e
  | Op.finish h => thunar_thumbnailer_thumbnailer_finished s h
  | Op.notif t h u => thunar_thumbnailer_idle s h t u
  | Op.runIdle i => (thunar_thumbnailer_idle_func s i, [])

/-- Run a sequence of operations, concatenating the effect traces. -/
def run_ops (s : State) : List Op → State × List Eff
  | [] => (s, [])
  | op :: rest =>
    ((run_ops (step_op s op).1 rest).1,
     (step_op s op).2 ++ (run_ops (step_op s op).1 rest).2)

/-- The value of `last_request` after `n` calls to
`thunar_thumbnailer_queue_async` starting from a fresh thumbnailer
(`last_request = 0`); the id returned by the n-th call is `last_after_submits n`. -/
def last_after_submits : Nat → Nat
  | 0 => 0
  | n + 1 => next_request_no (last_after_submits n)

/-- A background of external file states where nothing is resolved yet. -/
def blankFiles : String → ThumbState := fun _ => ThumbState.unknown

/-- A file cache that hits for every URI. -/
def fullCache : String → Bool := fun _ => true

/-- A job whose enqueue call is still in flight and which was already
cancelled by the caller. -/
def cancelledPendingJob : Job :=
  { request := 1, handle := 0, cancelled := true, handle_call := true }

/-- Thumbnailer holding only `cancelledPendingJob`. -/
def cancelledPendingState : State :=
  { proxy := true, jobs := [cancelledPendingJob], last_request := 1,
    idles := [], files := blankFiles, cache := fullCache }

/-- A job whose enqueue call is still in flight (handle field is the
zero-initialised sentinel). -/
def pendingJob : Job :=
  { request := 7, handle := 0, cancelled := false, handle_call := true }

/-- Thumbnailer holding only `pendingJob`. -/
def pendingState : State :=
  { proxy := true, jobs := [pendingJob], last_request := 7,
    idles := [], files := blankFiles, cache := fullCache }

/-- A job whose enqueue call completed successfully: handle 5 attached. -/
def liveJob : Job :=
  { request := 3, handle := 5, cancelled := false, handle_call := false }

/-- Thumbnailer holding only `liveJob`. -/
def liveState : State :=
  { proxy := true, jobs := [liveJob], last_request := 3,
    idles := [], files := blankFiles, cache := fullCache }

/-- A freshly created job, enqueue call in flight, nothing cancelled. -/
def freshJob : Job :=
  { request := 2, handle := 0, cancelled := false, handle_call := true }

/-- Thumbnailer holding only `freshJob`. -/
def freshState : State :=
  { proxy := true, jobs := [freshJob], last_request := 2,
    idles := [], files := blankFiles, cache := fullCache }

/-- An eligible file. -/
def goodFile : ThunarFile := { uri := "a", supported := true }

/-- An ineligible file. -/
def badFile : ThunarFile := { uri := "b", supported := false }

/-- A Finished signal whose handle matches no job leaves the job list alone
and emits nothing. -/
theorem finished_jobs_not_found (h : Nat) :
    ∀ (jobs : List Job), (∀ j ∈ jobs, j.handle ≠ h) →
      finished_jobs h jobs = (jobs, [])
  | [], _ => rfl
  | j :: rest, hnone => by
    have h1 : ¬(j.handle = h) := hnone j (List.mem_cons_self j rest)
    have h2 := finished_jobs_not_found h rest
      (fun k hk => hnone k (List.mem_cons_of_mem j hk))
    simp [finished_jobs, h1, h2]

/-- A Finished signal matching exactly the job `j` emits one
`request-finished` with `j.request` and deletes `j`. -/
theorem finished_jobs_found (h : Nat) :
    ∀ (pre : List Job) (j : Job) (post : List Job),
      (∀ k ∈ pre, k.handle ≠ h) → j.handle = h →
      finished_jobs h (pre ++ j :: post) =
        (pre ++ post, [Eff.requestFinished j.request])
  | [], j, post, _, hj => by simp [finished_jobs, hj]
  | k :: pre, j, post, hpre, hj => by
    have h1 : ¬(k.handle = h) := hpre k (List.mem_cons_self k pre)
    have h2 := finished_jobs_found h pre j post
      (fun x hx => hpre x (List.mem_cons_of_mem k hx)) hj
    simp [finished_jobs, h1, h2]

/-- The Finished handler never adds jobs: survivors were already present. -/
theorem finished_jobs_sub (h : Nat) :
    ∀ (jobs : List Job), ∀ j ∈ (finished_jobs h jobs).1, j ∈ jobs
  | [], j, hj => by simp [finished_jobs] at hj
  | k :: rest, j, hj => by
    by_cases hk : k.handle = h
    · simp [finished_jobs, hk] at hj
      exact List.mem_cons_of_mem k hj
    · simp [finished_jobs, hk] at hj
      rcases hj with hj1 | hj2
      · exact hj1 ▸ List.mem_cons_self j rest
      · exact List.mem_cons_of_mem k (finished_jobs_sub h rest j hj2)

/-- Every `request-finished` emission of the Finished handler carries the
request id of a job that was in the list. -/
theorem finished_jobs_effs (h : Nat) :
    ∀ (jobs : List Job), ∀ e ∈ (finished_jobs h jobs).2,
      ∃ j, j ∈ jobs ∧ e = Eff.requestFinished j.request
  | [], e, he => by simp [finished_jobs] at he
  | k :: rest, e, he => by
    by_cases hk : k.handle = h
    · simp [finished_jobs, hk] at he
      exact ⟨k, List.mem_cons_self k rest, he⟩
    · simp [finished_jobs, hk] at he
      obtain ⟨j, hj, hje⟩ := finished_jobs_effs h rest e he
      exact ⟨j, List.mem_cons_of_mem k hj, hje⟩

/-- Cancelling a request whose job has no handle yet only latches the
`cancelled` flag; no call is issued and the job stays. -/
theorem dequeue_jobs_found_nohandle (p : Bool) (r : Nat) :
    ∀ (pre : List Job) (j : Job) (post : List Job),
      (∀ k ∈ pre, k.request ≠ r) → j.request = r → j.handle = 0 →
      dequeue_jobs p r (pre ++ j :: post) =
        (pre ++ { j with cancelled := true } :: post, [])
  | [], j, post, _, hj, hh => by simp [dequeue_jobs, hj, hh]
  | k :: pre, j, post, hpre, hj, hh => by
    have h1 : ¬(k.request = r) := hpre k (List.mem_cons_self k pre)
    have h2 := dequeue_jobs_found_nohandle p r pre j post
      (fun x hx => hpre x (List.mem_cons_of_mem k hx)) hj hh
    simp [dequeue_jobs, h1, h2]

/-- Cancelling a request whose job already has a handle issues the Dequeue
call (when the proxy is alive) and deletes the job. -/
theorem dequeue_jobs_found_handle (p : Bool) (r : Nat) :
    ∀ (pre : List Job) (j : Job) (post : List Job),
      (∀ k ∈ pre, k.request ≠ r) → j.request = r → j.handle ≠ 0 →
      dequeue_jobs p r (pre ++ j :: post) =
        (pre ++ post, if p then [Eff.dequeue j.handle] else [])
  | [], j, post, _, hj, hh => by simp [dequeue_jobs, hj, hh]
  | k :: pre, j, post, hpre, hj, hh => by
    have h1 : ¬(k.request = r) := hpre k (List.mem_cons_self k pre)
    have h2 := dequeue_jobs_found_handle p r pre j post
      (fun x hx => hpre x (List.mem_cons_of_mem k hx)) hj hh
    simp [dequeue_jobs, h1, h2]

/-- The cancel traversal never invents request ids: every surviving job's id
belonged to some job of the input list. -/
theorem dequeue_jobs_requests (p : Bool) (r : Nat) :
    ∀ (jobs : List Job), ∀ j ∈ (dequeue_jobs p r jobs).1,
      ∃ k, k ∈ jobs ∧ k.request = j.request
  | [], j, hj => by simp [dequeue_jobs] at hj
  | k :: rest, j, hj => by
    by_cases hk : k.request = r
    · by_cases hh : k.handle ≠ 0
      · simp [dequeue_jobs, hk, hh] at hj
        exact ⟨j, List.mem_cons_of_mem k hj, rfl⟩
      · simp [dequeue_jobs, hk, hh] at hj
        rcases hj with hj1 | hj2
        · exact ⟨k, List.mem_cons_self k rest, by simp [hj1, hk]⟩
        · exact ⟨j, List.mem_cons_of_mem k hj2, rfl⟩
    · simp [dequeue_jobs, hk] at hj
      rcases hj with hj1 | hj2
      · exact ⟨k, List.mem_cons_self k rest, by rw [hj1]⟩
      · obtain ⟨x, hx, hxe⟩ := dequeue_jobs_requests p r rest j hj2
        exact ⟨x, List.mem_cons_of_mem k hx, hxe⟩

/-- The cancel traversal only ever issues Dequeue calls. -/
theorem dequeue_jobs_effs (p : Bool) (r : Nat) :
    ∀ (jobs : List Job), ∀ e ∈ (dequeue_jobs p r jobs).2, ∃ x, e = Eff.dequeue x
  | [], e, he => by simp [dequeue_jobs] at he
  | k :: rest, e, he => by
    by_cases hk : k.request = r
    · by_cases hh : k.handle ≠ 0
      · simp [dequeue_jobs, hk, hh] at he
        by_cases hp : p
        · simp [hp] at he
          exact ⟨k.handle, he⟩
        · simp [hp] at he
      · simp [dequeue_jobs, hk, hh] at he
    · simp [dequeue_jobs, hk] at he
      exact dequeue_jobs_effs p r rest e he

/-- Completion callback on a cancelled job: one Dequeue call with the
delivered handle value, regardless of the error flag, and the job is deleted. -/
theorem reply_jobs_found_cancelled (r h : Nat) (e : Bool) :
    ∀ (pre : List Job) (j : Job) (post : List Job),
      (∀ k ∈ pre, k.request ≠ r) → j.request = r → j.cancelled = true →
      reply_jobs r h e (pre ++ j :: post) = (pre ++ post, [Eff.dequeue h])
  | [], j, post, _, hj, hc => by simp [reply_jobs, hj, hc]
  | k :: pre, j, post, hpre, hj, hc => by
    have h1 : ¬(k.request = r) := hpre k (List.mem_cons_self k pre)
    have h2 := reply_jobs_found_cancelled r h e pre j post
      (fun x hx => hpre x (List.mem_cons_of_mem k hx)) hj hc
    simp [reply_jobs, h1, h2]

/-- Completion callback with a delivery error on a live job: the in-flight
call token is cleared and nothing else happens. -/
theorem reply_jobs_found_error (r h : Nat) :
    ∀ (pre : List Job) (j : Job) (post : List Job),
      (∀ k ∈ pre, k.request ≠ r) → j.request = r → j.cancelled = false →
      reply_jobs r h true (pre ++ j :: post) =
        (pre ++ { j with handle_call := false } :: post, [])
  | [], j, post, _, hj, hc => by simp [reply_jobs, hj, hc]
  | k :: pre, j, post, hpre, hj, hc => by
    have h1 : ¬(k.request = r) := hpre k (List.mem_cons_self k pre)
    have h2 := reply_jobs_found_error r h pre j post
      (fun x hx => hpre x (List.mem_cons_of_mem k hx)) hj hc
    simp [reply_jobs, h1, h2]

/-- Successful completion on a live job: the handle is attached and the
in-flight call token cleared. -/
theorem reply_jobs_found_success (r h : Nat) :
    ∀ (pre : List Job) (j : Job) (post : List Job),
      (∀ k ∈ pre, k.request ≠ r) → j.request = r → j.cancelled = false →
      reply_jobs r h false (pre ++ j :: post) =
        (pre ++ { j with handle_call := false, handle := h } :: post, [])
  | [], j, post, _, hj, hc => by simp [reply_jobs, hj, hc]
  | k :: pre, j, post, hpre, hj, hc => by
    have h1 : ¬(k.request = r) := hpre k (List.mem_cons_self k pre)
    have h2 := reply_jobs_found_success r h pre j post
      (fun x hx => hpre x (List.mem_cons_of_mem k hx)) hj hc
    simp [reply_jobs, h1, h2]

/-- The completion callback never invents request ids. -/
theorem reply_jobs_requests (r h : Nat) (e : Bool) :
    ∀ (jobs : List Job), ∀ j ∈ (reply_jobs r h e jobs).1,
      ∃ k, k ∈ jobs ∧ k.request = j.request
  | [], j, hj => by simp [reply_jobs] at hj
  | k :: rest, j, hj => by
    by_cases hk : k.request = r
    · by_cases hc : k.cancelled
      · simp [reply_jobs, hk, hc] at hj
        exact ⟨j, List.mem_cons_of_mem k hj, rfl⟩
      · by_cases he : e
        · simp [reply_jobs, hk, hc, he] at hj
          rcases hj with hj1 | hj2
          · exact ⟨k, List.mem_cons_self k rest, by simp [hj1, hk]⟩
          · exact ⟨j, List.mem_cons_of_mem k hj2, rfl⟩
        · simp [reply_jobs, hk, hc, he] at hj
          rcases hj with hj1 | hj2
          · exact ⟨k, List.mem_cons_self k rest, by simp [hj1, hk]⟩
          · exact ⟨j, List.mem_cons_of_mem k hj2, rfl⟩
    · simp [reply_jobs, hk] at hj
      rcases hj with hj1 | hj2
      · exact ⟨k, List.mem_cons_self k rest, by rw [hj1]⟩
      · obtain ⟨x, hx, hxe⟩ := reply_jobs_requests r h e rest j hj2
        exact ⟨x, List.mem_cons_of_mem k hx, hxe⟩

/-- The completion callback only ever issues the one Dequeue call. -/
theorem reply_jobs_effs (r h : Nat) (e : Bool) :
    ∀ (jobs : List Job), ∀ x ∈ (reply_jobs r h e jobs).2, x = Eff.dequeue h
  | [], x, hx => by simp [reply_jobs] at hx
  | k :: rest, x, hx => by
    by_cases hk : k.request = r
    · by_cases hc : k.cancelled
      · simp [reply_jobs, hk, hc] at hx
        exact hx
      · by_cases he : e
        · simp [reply_jobs, hk, hc, he] at hx
        · simp [reply_jobs, hk, hc, he] at hx
    · simp [reply_jobs, hk] at hx
      exact reply_jobs_effs r h e rest x hx

/-- The allocator never returns 0. -/
theorem next_request_no_pos (last : Nat) : 1 ≤ next_request_no last :=
  le_max_right _ _

/-- Below the 32-bit wrap, the allocator is a plain increment. -/
theorem next_request_no_eq (last : Nat) (hb : last + 1 < guintMod) :
    next_request_no last = last + 1 := by
  unfold next_request_no
  rw [Nat.mod_eq_of_lt hb]
  omega

/-- Pointwise description of the loading loop of
`thunar_thumbnailer_queue_files`: a URI appearing in the iterated list ends
up loading, any other URI keeps its previous state. -/
theorem set_loading_fold_eq :
    ∀ (l : List ThunarFile) (fs : String → ThumbState) (u : String),
      set_loading_fold fs l u =
        if u ∈ l.map (fun f => f.uri) then ThumbState.loading else fs u
  | [], fs, u => by simp [set_loading_fold]
  | f :: rest, fs, u => by
    have step : set_loading_fold fs (f :: rest) =
        set_loading_fold (fun v => if v = f.uri then ThumbState.loading else fs v) rest := rfl
    rw [step, set_loading_fold_eq rest _ u]
    by_cases hu : u ∈ rest.map (fun f => f.uri)
    · simp [hu]
    · by_cases hf : u = f.uri <;> simp [hu, hf]

/-- High-level shape of `thunar_thumbnailer_queue_files`: either it fails and
is a complete no-op, or it pushes one fresh pending job carrying the next
request id, bumps `last_request`, and emits only thumb-state writes and the
enqueue call. -/
theorem queue_files_spec (s : State) (files : List ThunarFile) :
    thunar_thumbnailer_queue_files s files = (s, false, none, []) ∨
    ((thunar_thumbnailer_queue_files s files).1.jobs =
        { request := next_request_no s.last_request, handle := 0,
          cancelled := false, handle_call := true } :: s.jobs ∧
     (thunar_thumbnailer_queue_files s files).1.last_request =
        next_request_no s.last_request ∧
     ∀ e ∈ (thunar_thumbnailer_queue_files s files).2.2.2,
       ∀ q, e ≠ Eff.requestFinished q) := by
  by_cases hp : s.proxy = false
  · left
    simp [thunar_thumbnailer_queue_files, hp]
  · by_cases hlen :
      (files.filter (fun f => thunar_thumbnailer_file_is_supported s f)).length > 0
    · right
      refine ⟨?_, ?_, ?_⟩
      · simp [thunar_thumbnailer_queue_files, hp, hlen,
              thunar_thumbnailer_queue_async]
      · simp [thunar_thumbnailer_queue_files, hp, hlen,
              thunar_thumbnailer_queue_async]
      · intro e he q
        simp [thunar_thumbnailer_queue_files, hp, hlen,
              thunar_thumbnailer_queue_async] at he
        rcases he with ⟨f, hf, rfl⟩ | rfl <;> simp
    · left
      simp [thunar_thumbnailer_queue_files, hp, hlen]

/-- The ready/error signal handler `thunar_thumbnailer_idle` never changes
the job list, the counter or the file states, and performs no outbound call. -/
theorem idle_preserves (s : State) (h : Nat) (t : IdleType)
    (u : Option (List String)) :
    (thunar_thumbnailer_idle s h t u).1.jobs = s.jobs ∧
    (thunar_thumbnailer_idle s h t u).1.last_request = s.last_request ∧
    (thunar_thumbnailer_idle s h t u).1.files = s.files ∧
    (thunar_thumbnailer_idle s h t u).2 = [] := by
  cases u with
  | none => simp [thunar_thumbnailer_idle]
  | some l =>
    by_cases hany : s.jobs.any (fun j => j.handle == h) <;>
      simp [thunar_thumbnailer_idle, hany]

/-- One step of any operation, from a state in which no job carries request
id `r` and the counter has not yet wrapped: no `request-finished` event for
`r` is emitted, no job with request id `r` appears, and the counter grows by
at most one. -/
theorem step_op_preserves (r : Nat) (s : State) (op : Op)
    (hjobs : ∀ j ∈ s.jobs, j.request ≠ r)
    (hr : r ≤ s.last_request)
    (hb : s.last_request + 1 < guintMod) :
    Eff.requestFinished r ∉ (step_op s op).2 ∧
    (∀ j ∈ (step_op s op).1.jobs, j.request ≠ r) ∧
    r ≤ (step_op s op).1.last_request ∧
    (step_op s op).1.last_request ≤ s.last_request + 1 := by
  cases op with
  | submit files =>
    rcases queue_files_spec s files with hno | ⟨hjobs2, hlast2, heffs⟩
    · simp only [step_op, hno]
      exact ⟨by simp, hjobs, hr, Nat.le_succ _⟩
    · have hnext : next_request_no s.last_request = s.last_request + 1 :=
        next_request_no_eq s.last_request hb
      refine ⟨?_, ?_, ?_, ?_⟩
      · intro hmem
        exact heffs _ hmem r rfl
      · intro j hj
        rw [show (step_op s (Op.submit files)).1.jobs =
              (thunar_thumbnailer_queue_files s files).1.jobs from rfl, hjobs2] at hj
        rcases List.mem_cons.mp hj with rfl | hj2
        · simp [hnext]
          omega
        · exact hjobs j hj2
      · rw [show (step_op s (Op.submit files)).1.last_request =
              (thunar_thumbnailer_queue_files s files).1.last_request from rfl,
            hlast2, hnext]
        omega
      · rw [show (step_op s (Op.submit files)).1.last_request =
              (thunar_thumbnailer_queue_files s files).1.last_request from rfl,
            hlast2, hnext]
  | cancel q =>
    refine ⟨?_, ?_, hr, Nat.le_succ _⟩
    · intro hmem
      obtain ⟨x, hx⟩ := dequeue_jobs_effs s.proxy q s.jobs _ hmem
      exact Eff.noConfusion hx
    · intro j hj
      obtain ⟨k, hk, hke⟩ := dequeue_jobs_requests s.proxy q s.jobs j hj
      rw [← hke]
      exact hjobs k hk
  | reply q h e =>
    refine ⟨?_, ?_, hr, Nat.le_succ _⟩
    · intro hmem
      exact Eff.noConfusion (reply_jobs_effs q h e s.jobs _ hmem)
    · intro j hj
      obtain ⟨k, hk, hke⟩ := reply_jobs_requests q h e s.jobs j hj
      rw [← hke]
      exact hjobs k hk
  | finish h =>
    refine ⟨?_, ?_, hr, Nat.le_succ _⟩
    · intro hmem
      obtain ⟨j, hj, hje⟩ := finished_jobs_effs h s.jobs _ hmem
      exact hjobs j hj (by injection hje.symm)
    · intro j hj
      exact hjobs j (finished_jobs_sub h s.jobs j hj)
  | notif t h u =>
    obtain ⟨hj, hl, _, he⟩ := idle_preserves s h t u
    rw [show (step_op s (Op.notif t h u)) = thunar_thumbnailer_idle s h t u from rfl]
    rw [hj, hl, he]
    exact ⟨by simp, hjobs, hr, Nat.le_succ _⟩
  | runIdle i =>
    exact ⟨by simp [step_op], hjobs, hr, Nat.le_succ _⟩

/-- Trace-level invariant: starting from a state in which no live job carries
request id `r` (and `r` is not above the id counter, and the counter cannot
wrap within the trace), no sequence of operations ever emits a
`request-finished` event carrying `r`. -/
theorem run_ops_no_finished (r : Nat) :
    ∀ (ops : List Op) (s : State),
      (∀ j ∈ s.jobs, j.request ≠ r) →
      r ≤ s.last_request →
      s.last_request + ops.length < guintMod →
      Eff.requestFinished r ∉ (run_ops s ops).2
  | [], s, _, _, _ => by simp [run_ops]
  | op :: rest, s, hjobs, hr, hb => by
    have hb1 : s.last_request + 1 < guintMod := by
      simp [List.length_cons] at hb
      omega
    obtain ⟨he, hj2, hr2, hl2⟩ := step_op_preserves r s op hjobs hr hb1
    have hrec := run_ops_no_finished r rest (step_op s op).1 hj2 hr2
      (by simp [List.length_cons] at hb; omega)
    intro hmem
    simp only [run_ops, List.mem_append] at hmem
    rcases hmem with h1 | h2
    · exact he h1
    · exact hrec h2

/-- Claim C1: for every Finished(handle) notification, if some live job holds
that handle then the request-finished event is emitted exactly once carrying
that job's request id and the job is removed from the registry; if no live
job holds the handle the notification has no observable effect.  Re-delivery
of the same Finished after the removal emits nothing, so request-finished
fires at most once per non-cancelled accepted request. -/
theorem finished_resolves_emits_once_and_removes (s : State) (h : Nat) :
    ((∀ j ∈ s.jobs, j.handle ≠ h) →
      thunar_thumbnailer_thumbnailer_finished s h = (s, [])) ∧
    (∀ pre j post, s.jobs = pre ++ j :: post → j.handle = h →
      (∀ k ∈ pre, k.handle ≠ h) → (∀ k ∈ post, k.handle ≠ h) →
      (thunar_thumbnailer_thumbnailer_finished s h).2 =
        [Eff.requestFinished j.request] ∧
      (thunar_thumbnailer_thumbnailer_finished s h).1.jobs = pre ++ post ∧
      (thunar_thumbnailer_thumbnailer_finished
        (thunar_thumbnailer_thumbnailer_finished s h).1 h).2 = [] ∧
      (thunar_thumbnailer_thumbnailer_finished
        (thunar_thumbnailer_thumbnailer_finished s h).1 h).1.jobs =
        (thunar_thumbnailer_thumbnailer_finished s h).1.jobs) := by
  constructor
  · intro hno
    simp [thunar_thumbnailer_thumbnailer_finished,
          finished_jobs_not_found h s.jobs hno]
  · intro pre j post hsplit hj hpre hpost
    have hfound := finished_jobs_found h pre j post hpre hj
    have hnot : ∀ k ∈ pre ++ post, k.handle ≠ h := by
      intro k hk
      rcases List.mem_append.mp hk with h1 | h2
      · exact hpre k h1
      · exact hpost k h2
    have hjobs1 : (thunar_thumbnailer_thumbnailer_finished s h).1.jobs =
        pre ++ post := by
      simp [thunar_thumbnailer_thumbnailer_finished, hsplit, hfound]
    have hfj : (finished_jobs h s.jobs).1 = pre ++ post := by
      rw [hsplit, hfound]
    refine ⟨?_, hjobs1, ?_, ?_⟩
    · simp [thunar_thumbnailer_thumbnailer_finished, hsplit, hfound]
    · simp [thunar_thumbnailer_thumbnailer_finished, hfj,
            finished_jobs_not_found h (pre ++ post) hnot]
    · simp [thunar_thumbnailer_thumbnailer_finished, hfj,
            finished_jobs_not_found h (pre ++ post) hnot]

/-- Witness for C1 at a concrete registry: one live job with handle 5,
request 3. -/
theorem finished_resolves_witness :
    (thunar_thumbnailer_thumbnailer_finished liveState 5).2 =
      [Eff.requestFinished 3] ∧
    (thunar_thumbnailer_thumbnailer_finished liveState 5).1.jobs = [] ∧
    thunar_thumbnailer_thumbnailer_finished liveState 9 = (liveState, []) := by
  have h := (finished_resolves_emits_once_and_removes liveState 5).2
    [] liveJob [] rfl rfl (by simp) (by simp)
  have h2 := (finished_resolves_emits_once_and_removes liveState 9).1 (by decide)
  exact ⟨h.1, by simpa using h.2.1, h2⟩

/-- Claim C3 counterexample: the completion callback for a cancelled job
issues the Dequeue call even when the enqueue completed with a delivery
error (`error ≠ NULL`), contradicting "no dequeue is issued for that
cancelled job on delivery error": with one cancelled pending job and an
error reply, the effect list is a Dequeue call. -/
theorem reply_error_cancelled_still_dequeues :
    (thunar_thumbnailer_queue_async_reply cancelledPendingState 1 0 true).2 =
      [Eff.dequeue 0] ∧
    (thunar_thumbnailer_queue_async_reply cancelledPendingState 1 0 true).2 ≠
      [] := by
  constructor <;> decide

/-- Claim C3 amended: when the completion callback runs for a job marked
cancelled, a Dequeue call is issued unconditionally with the delivered
handle value — also on delivery error; the job is removed unconditionally
and no request-finished event is raised for it. -/
theorem reply_cancelled_unconditional_dequeue
    (s : State) (r hnd : Nat) (err : Bool) (pre post : List Job) (j : Job)
    (hsplit : s.jobs = pre ++ j :: post)
    (hpre : ∀ k ∈ pre, k.request ≠ r)
    (hj : j.request = r) (hc : j.cancelled = true) :
    (thunar_thumbnailer_queue_async_reply s r hnd err).2 = [Eff.dequeue hnd] ∧
    (thunar_thumbnailer_queue_async_reply s r hnd err).1.jobs = pre ++ post ∧
    (∀ q, Eff.requestFinished q ∉
      (thunar_thumbnailer_queue_async_reply s r hnd err).2) := by
  have hrp := reply_jobs_found_cancelled r hnd err pre j post hpre hj hc
  refine ⟨?_, ?_, ?_⟩
  · simp [thunar_thumbnailer_queue_async_reply, hsplit, hrp]
  · simp [thunar_thumbnailer_queue_async_reply, hsplit, hrp]
  · intro q hq
    simp [thunar_thumbnailer_queue_async_reply, hsplit, hrp] at hq

/-- Witness for the amended C3 at a concrete cancelled job and an error
reply delivering handle value 5. -/
theorem reply_cancelled_witness :
    (thunar_thumbnailer_queue_async_reply cancelledPendingState 1 5 true).2 =
      [Eff.dequeue 5] ∧
    (thunar_thumbnailer_queue_async_reply cancelledPendingState 1 5 true).1.jobs =
      [] := by
  have h := reply_cancelled_unconditional_dequeue cancelledPendingState 1 5 true
    [] [] cancelledPendingJob rfl (by simp) rfl rfl
  exact ⟨h.1, by simpa using h.2.1⟩

/-- Claim C10: a job whose enqueue call has not completed stores the sentinel
0 in its handle field, and the Finished / Ready / Error handlers match by
plain equality on that field; hence a Finished notification carrying handle 0
matches such a job — emitting request-finished with its request id and
removing it — and Ready / Error notifications carrying handle 0 queue a
deferred notification for it, although the service never acknowledged the
request (`handle_call` is still set). -/
theorem zero_handle_matches_pending_job :
    pendingState.jobs =
      [{ request := 7, handle := 0, cancelled := false, handle_call := true }] ∧
    (thunar_thumbnailer_thumbnailer_finished pendingState 0).2 =
      [Eff.requestFinished 7] ∧
    (thunar_thumbnailer_thumbnailer_finished pendingState 0).1.jobs = [] ∧
    (thunar_thumbnailer_idle pendingState 0 IdleType.ready (some ["a"])).1.idles =
      [{ type := IdleType.ready, uris := ["a"] }] ∧
    (thunar_thumbnailer_idle pendingState 0 IdleType.error (some ["a"])).1.idles =
      [{ type := IdleType.error, uris := ["a"] }] := by
  refine ⟨?_, ?_, ?_, ?_, ?_⟩ <;> decide

/-- Claim C4: for every ready(handle, uris) or error(handle, uris, ...)
notification, if no live job holds the handle the entire notification is
ignored (no deferred task queued, no file state touched); if a job holds the
handle, exactly one deferred notification carrying the kind and the URI list
is queued, and no external file thumbnail-state is mutated synchronously
during signal delivery. -/
theorem ready_error_notification_defers (s : State) (h : Nat) (t : IdleType)
    (l : List String) :
    ((∀ j ∈ s.jobs, j.handle ≠ h) →
      thunar_thumbnailer_idle s h t (some l) = (s, [])) ∧
    ((∃ j ∈ s.jobs, j.handle = h) →
      (thunar_thumbnailer_idle s h t (some l)).1.idles =
        { type := t, uris := l } :: s.idles ∧
      (thunar_thumbnailer_idle s h t (some l)).1.files = s.files ∧
      (thunar_thumbnailer_idle s h t (some l)).1.jobs = s.jobs ∧
      (thunar_thumbnailer_idle s h t (some l)).2 = []) := by
  constructor
  · intro hno
    have hany : s.jobs.any (fun j => j.handle == h) = false := by
      rw [List.any_eq_false]
      intro j hj
      simpa using hno j hj
    simp [thunar_thumbnailer_idle, hany]
  · rintro ⟨j, hj, hjh⟩
    have hany : s.jobs.any (fun j => j.handle == h) = true := by
      rw [List.any_eq_true]
      exact ⟨j, hj, by simpa using hjh⟩
    simp [thunar_thumbnailer_idle, hany]

/-- Witness for C4: a Ready for the live handle 5 queues one idle struct; a
Ready for the unknown handle 9 is a complete no-op. -/
theorem notification_defers_witness :
    (thunar_thumbnailer_idle liveState 5 IdleType.ready (some ["a"])).1.idles =
      [{ type := IdleType.ready, uris := ["a"] }] ∧
    thunar_thumbnailer_idle liveState 9 IdleType.ready (some ["a"]) =
      (liveState, []) := by
  constructor
  · have h := (ready_error_notification_defers liveState 5 IdleType.ready ["a"]).2
      ⟨liveJob, by decide, rfl⟩
    simpa [liveState] using h.1
  · exact (ready_error_notification_defers liveState 9 IdleType.ready ["a"]).1
      (by decide)

/-- Claim C5: in deferred execution, an error entry sets a resolved file's
thumbnail-state to none only if the state is not already ready, while a
ready entry sets ready unconditionally; hence a file receiving both an
Error and a Ready for its handle ends ready in either order, never none. -/
theorem ready_wins_over_error (s : State) (u : String)
    (hcache : s.cache u = true) :
    (∀ st, st ≠ ThumbState.ready →
      thumb_state_after IdleType.error st = ThumbState.nothumb) ∧
    thumb_state_after IdleType.error ThumbState.ready = ThumbState.ready ∧
    (∀ st, thumb_state_after IdleType.ready st = ThumbState.ready) ∧
    (thunar_thumbnailer_idle_func
      (thunar_thumbnailer_idle_func s { type := IdleType.error, uris := [u] })
      { type := IdleType.ready, uris := [u] }).files u = ThumbState.ready ∧
    (thunar_thumbnailer_idle_func
      (thunar_thumbnailer_idle_func s { type := IdleType.ready, uris := [u] })
      { type := IdleType.error, uris := [u] }).files u = ThumbState.ready := by
  have happly : ∀ (t : IdleType) (fs : String → ThumbState),
      apply_idle_uris s.cache t [u] fs u = thumb_state_after t (fs u) := by
    intro t fs
    simp [apply_idle_uris, apply_idle_uri, hcache]
  refine ⟨?_, rfl, fun st => rfl, ?_, ?_⟩
  · intro st hst
    cases st with
    | ready => exact absurd rfl hst
    | unknown => rfl
    | nothumb => rfl
    | loading => rfl
  · simp [thunar_thumbnailer_idle_func, happly, thumb_state_after]
  · simp [thunar_thumbnailer_idle_func, happly, thumb_state_after]

/-- Witness for C5 at a concrete state: Error then Ready, and Ready then
Error, both leave the file ready. -/
theorem ready_wins_witness :
    (thunar_thumbnailer_idle_func
      (thunar_thumbnailer_idle_func pendingState
        { type := IdleType.error, uris := ["a"] })
      { type := IdleType.ready, uris := ["a"] }).files "a" = ThumbState.ready ∧
    (thunar_thumbnailer_idle_func
      (thunar_thumbnailer_idle_func pendingState
        { type := IdleType.ready, uris := ["a"] })
      { type := IdleType.error, uris := ["a"] }).files "a" = ThumbState.ready := by
  have h := ready_wins_over_error pendingState "a" rfl
  exact ⟨h.2.2.2.1, h.2.2.2.2⟩

/-- Claim C6: when the enqueue call completes with a delivery error for a job
that was not cancelled, the job remains registered but handle-less: no handle
is attached, no request-finished event is raised, no dequeue is issued, and
the job is not removed by this completion path. -/
theorem reply_delivery_error_orphans_job
    (s : State) (r hnd : Nat) (pre post : List Job) (j : Job)
    (hsplit : s.jobs = pre ++ j :: post)
    (hpre : ∀ k ∈ pre, k.request ≠ r)
    (hj : j.request = r) (hc : j.cancelled = false) (hh : j.handle = 0) :
    (thunar_thumbnailer_queue_async_reply s r hnd true).1.jobs =
      pre ++ { j with handle_call := false } :: post ∧
    ({ j with handle_call := false } : Job).handle = 0 ∧
    (thunar_thumbnailer_queue_async_reply s r hnd true).2 = [] := by
  have hrp := reply_jobs_found_error r hnd pre j post hpre hj hc
  refine ⟨?_, ?_, ?_⟩
  · simp [thunar_thumbnailer_queue_async_reply, hsplit, hrp]
  · simp [hh]
  · simp [thunar_thumbnailer_queue_async_reply, hsplit, hrp]

/-- Witness for C6: error reply for the fresh pending job keeps it in the
registry with handle 0 and emits nothing. -/
theorem reply_delivery_error_witness :
    (thunar_thumbnailer_queue_async_reply freshState 2 5 true).1.jobs =
      [{ request := 2, handle := 0, cancelled := false, handle_call := false }] ∧
    (thunar_thumbnailer_queue_async_reply freshState 2 5 true).2 = [] := by
  have h := reply_delivery_error_orphans_job freshState 2 5 [] [] freshJob
    rfl (by simp) rfl rfl rfl
  exact ⟨by simpa using h.1, h.2.2⟩

/-- Claim C7: submit fails exactly when the service connection is
unavailable or no file of the input list is eligible; in either failure case
no request id is produced, no job is created, no thumb state is touched and
no effect is emitted — the call is a complete no-op, so no later
request-finished event can reference it. -/
theorem queue_files_failure_iff (s : State) (files : List ThunarFile) :
    ((thunar_thumbnailer_queue_files s files).2.1 = false ↔
      (s.proxy = false ∨
        files.filter (fun f => thunar_thumbnailer_file_is_supported s f) = [])) ∧
    ((thunar_thumbnailer_queue_files s files).2.1 = false →
      thunar_thumbnailer_queue_files s files = (s, false, none, [])) := by
  by_cases hp : s.proxy = false
  · constructor
    · simp [thunar_thumbnailer_queue_files, hp]
    · intro _
      simp [thunar_thumbnailer_queue_files, hp]
  · by_cases hlen :
      (files.filter (fun f => thunar_thumbnailer_file_is_supported s f)).length > 0
    · have hne :
          files.filter (fun f => thunar_thumbnailer_file_is_supported s f) ≠ [] := by
        intro h0
        rw [h0] at hlen
        simp at hlen
      constructor
      · simp [thunar_thumbnailer_queue_files, hp, hlen, hne]
      · intro hfalse
        simp [thunar_thumbnailer_queue_files, hp, hlen] at hfalse
    · have hempty :
          files.filter (fun f => thunar_thumbnailer_file_is_supported s f) = [] := by
        rcases Nat.eq_zero_or_pos
          (files.filter (fun f => thunar_thumbnailer_file_is_supported s f)).length with
          h0 | hposi
        · exact List.length_eq_zero.mp h0
        · exact absurd hposi hlen
      constructor
      · simp [thunar_thumbnailer_queue_files, hp, hlen, hempty]
      · intro _
        simp [thunar_thumbnailer_queue_files, hp, hlen]

/-- Witness for C7: a submit whose only file is ineligible is a no-op
failure, and it indeed satisfies the failure condition. -/
theorem queue_files_failure_witness :
    thunar_thumbnailer_queue_files pendingState [badFile] =
      (pendingState, false, none, []) ∧
    (thunar_thumbnailer_queue_files pendingState [badFile]).2.1 = false := by
  have hiff := (queue_files_failure_iff pendingState [badFile]).1
  have hfails : (thunar_thumbnailer_queue_files pendingState [badFile]).2.1 = false :=
    hiff.mpr (Or.inr (by decide))
  exact ⟨(queue_files_failure_iff pendingState [badFile]).2 hfails, hfails⟩

/-- Claim C8: during a successful submit every eligible file's external
thumbnail-state is set to loading synchronously — the effect trace consists
of the per-file loading writes followed by the one enqueue call, so every
write precedes the outbound call and happens before submit returns — while
URIs outside the eligible set keep their previous state. -/
theorem queue_files_marks_loading_before_enqueue (s : State)
    (files : List ThunarFile)
    (hp : s.proxy = true)
    (hne : files.filter (fun f => thunar_thumbnailer_file_is_supported s f) ≠ []) :
    (∀ f ∈ files, thunar_thumbnailer_file_is_supported s f = true →
      (thunar_thumbnailer_queue_files s files).1.files f.uri =
        ThumbState.loading) ∧
    (∀ u, u ∉ (files.filter
          (fun f => thunar_thumbnailer_file_is_supported s f)).map
            (fun f => f.uri) →
      (thunar_thumbnailer_queue_files s files).1.files u = s.files u) ∧
    (thunar_thumbnailer_queue_files s files).2.2.2 =
      ((files.filter (fun f => thunar_thumbnailer_file_is_supported s f)).reverse.map
        (fun f => Eff.setThumbState f.uri ThumbState.loading)) ++
      [Eff.enqueueCall
        ((files.filter (fun f => thunar_thumbnailer_file_is_supported s f)).reverse.map
          (fun f => f.uri))] := by
  have hps : ¬(s.proxy = false) := by simp [hp]
  have hlen :
      (files.filter (fun f => thunar_thumbnailer_file_is_supported s f)).length > 0 :=
    List.length_pos.mpr hne
  have hfiles : (thunar_thumbnailer_queue_files s files).1.files =
      set_loading_fold s.files
        (files.filter (fun f => thunar_thumbnailer_file_is_supported s f)).reverse := by
    simp [thunar_thumbnailer_queue_files, hps, hlen, thunar_thumbnailer_queue_async]
  refine ⟨?_, ?_, ?_⟩
  · intro f hf hsup
    rw [hfiles, set_loading_fold_eq]
    have hmem : f.uri ∈
        ((files.filter (fun f => thunar_thumbnailer_file_is_supported s f)).reverse.map
          (fun f => f.uri)) := by
      apply List.mem_map_of_mem
      rw [List.mem_reverse, List.mem_filter]
      exact ⟨hf, hsup⟩
    rw [if_pos hmem]
  · intro u hu
    rw [hfiles, set_loading_fold_eq]
    have hnmem : u ∉
        ((files.filter (fun f => thunar_thumbnailer_file_is_supported s f)).reverse.map
          (fun f => f.uri)) := by
      intro hmem
      apply hu
      obtain ⟨f, hf, hfe⟩ := List.mem_map.mp hmem
      exact List.mem_map.mpr ⟨f, List.mem_reverse.mp hf, hfe⟩
    rw [if_neg hnmem]
  · simp [thunar_thumbnailer_queue_files, hps, hlen, thunar_thumbnailer_queue_async]

/-- Witness for C8: submitting one eligible and one ineligible file marks
only the eligible URI loading and emits the loading write strictly before
the enqueue call. -/
theorem queue_files_loading_witness :
    (thunar_thumbnailer_queue_files pendingState [goodFile, badFile]).1.files "a" =
      ThumbState.loading ∧
    (thunar_thumbnailer_queue_files pendingState [goodFile, badFile]).1.files "b" =
      pendingState.files "b" ∧
    (thunar_thumbnailer_queue_files pendingState [goodFile, badFile]).2.2.2 =
      [Eff.setThumbState "a" ThumbState.loading, Eff.enqueueCall ["a"]] := by
  have h := queue_files_marks_loading_before_enqueue pendingState
    [goodFile, badFile] rfl (by decide)
  refine ⟨h.1 goodFile (by decide) rfl, h.2.1 "b" (by decide), ?_⟩
  rw [h.2.2]
  decide

/-- Unfolding of the allocator iteration at a successor. -/
theorem last_after_submits_succ (n : Nat) :
    last_after_submits (n + 1) = next_request_no (last_after_submits n) := rfl

/-- Before the 32-bit wrap, the n-th allocated request id is exactly n. -/
theorem last_after_submits_id : ∀ n, n ≤ 4294967295 → last_after_submits n = n
  | 0, _ => rfl
  | n + 1, hn => by
    have ih := last_after_submits_id n (by omega)
    rw [last_after_submits_succ, ih]
    have hb : n + 1 < guintMod := by
      show n + 1 < 4294967296
      omega
    exact next_request_no_eq n hb

/-- Claim C9 counterexample: request ids are not strictly increasing over
every sequence of accepted submits — `last_request` is a 32-bit counter, so
the 2^32-th allocation wraps: it returns 1, strictly below the previous id
2^32 - 1. -/
theorem request_ids_wrap_counterexample :
    last_after_submits 4294967295 = 4294967295 ∧
    last_after_submits 4294967296 = 1 ∧
    ¬(last_after_submits 4294967295 < last_after_submits 4294967296) := by
  have h1 : last_after_submits 4294967295 = 4294967295 :=
    last_after_submits_id 4294967295 (le_refl _)
  have h2 : last_after_submits 4294967296 = 1 := by
    have hrw : (4294967296 : Nat) = 4294967295 + 1 := by norm_num
    rw [hrw, last_after_submits_succ, h1]
    decide
  refine ⟨h1, h2, ?_⟩
  rw [h1, h2]
  decide

/-- Claim C9 amended: each accepted submit returns
`max((last_request + 1) mod 2^32, 1)` and records it; the returned id is
never zero, and as long as the counter has not wrapped (fewer than 2^32
allocations) consecutive ids are strictly increasing; at the wrap the next
id restarts at 1. -/
theorem request_ids_increase_before_wrap (s : State) (uris : List String)
    (n : Nat) (hb : s.last_request + 1 < guintMod) (hn : n + 1 ≤ 4294967295) :
    (thunar_thumbnailer_queue_async s uris).2.1 = s.last_request + 1 ∧
    (thunar_thumbnailer_queue_async s uris).2.1 ≠ 0 ∧
    s.last_request < (thunar_thumbnailer_queue_async s uris).2.1 ∧
    (thunar_thumbnailer_queue_async s uris).1.last_request =
      (thunar_thumbnailer_queue_async s uris).2.1 ∧
    last_after_submits n < last_after_submits (n + 1) ∧
    (∀ m, last_after_submits (m + 1) ≠ 0) := by
  have hreq : (thunar_thumbnailer_queue_async s uris).2.1 = s.last_request + 1 := by
    simp [thunar_thumbnailer_queue_async, next_request_no_eq s.last_request hb]
  refine ⟨hreq, ?_, ?_, ?_, ?_, ?_⟩
  · rw [hreq]
    omega
  · rw [hreq]
    omega
  · simp [thunar_thumbnailer_queue_async]
  · rw [last_after_submits_id n (by omega), last_after_submits_id (n + 1) hn]
    omega
  · intro m
    have := next_request_no_pos (last_after_submits m)
    rw [last_after_submits_succ]
    omega

/-- Witness for the amended C9 at a concrete state and step count. -/
theorem request_ids_increase_witness :
    (thunar_thumbnailer_queue_async pendingState ["a"]).2.1 = 8 ∧
    (thunar_thumbnailer_queue_async pendingState ["a"]).2.1 ≠ 0 ∧
    last_after_submits 3 < last_after_submits 4 := by
  have h := request_ids_increase_before_wrap pendingState ["a"] 3
    (by decide) (by decide)
  exact ⟨h.1, h.2.1, h.2.2.2.2.1⟩

/-- Claim C2: for every accepted request that is cancelled — whether the
cancel runs while the enqueue call is still in flight (with the completion
then succeeding) or after a handle is attached — the cancel/completion pair
issues exactly one Dequeue call for the request, the job ends up removed
from the registry, and no continuation of operations (within the counter's
32-bit range) ever emits a request-finished event carrying its request id. -/
theorem cancelled_request_one_dequeue_no_finished
    (s : State) (r hnd : Nat) (pre post : List Job) (j : Job) (ops : List Op)
    (hsplit : s.jobs = pre ++ j :: post)
    (hj : j.request = r)
    (hpre : ∀ k ∈ pre, k.request ≠ r)
    (hpost : ∀ k ∈ post, k.request ≠ r)
    (hproxy : s.proxy = true)
    (hr : r ≤ s.last_request)
    (hops : s.last_request + ops.length < guintMod) :
    (j.handle = 0 →
      (thunar_thumbnailer_dequeue s r).2 = [] ∧
      (thunar_thumbnailer_queue_async_reply
        (thunar_thumbnailer_dequeue s r).1 r hnd false).2 = [Eff.dequeue hnd] ∧
      (∀ k ∈ (thunar_thumbnailer_queue_async_reply
          (thunar_thumbnailer_dequeue s r).1 r hnd false).1.jobs,
        k.request ≠ r) ∧
      Eff.requestFinished r ∉
        (run_ops (thunar_thumbnailer_queue_async_reply
          (thunar_thumbnailer_dequeue s r).1 r hnd false).1 ops).2) ∧
    (j.handle ≠ 0 →
      (thunar_thumbnailer_dequeue s r).2 = [Eff.dequeue j.handle] ∧
      (∀ k ∈ (thunar_thumbnailer_dequeue s r).1.jobs, k.request ≠ r) ∧
      Eff.requestFinished r ∉
        (run_ops (thunar_thumbnailer_dequeue s r).1 ops).2) := by
  have hclean : ∀ k ∈ pre ++ post, k.request ≠ r := by
    intro k hk
    rcases List.mem_append.mp hk with h1 | h2
    · exact hpre k h1
    · exact hpost k h2
  constructor
  · intro h0
    have hdq := dequeue_jobs_found_nohandle s.proxy r pre j post hpre hj h0
    have hstate1 : (thunar_thumbnailer_dequeue s r).1.jobs =
        pre ++ { j with cancelled := true } :: post := by
      simp [thunar_thumbnailer_dequeue, hsplit, hdq]
    have heff1 : (thunar_thumbnailer_dequeue s r).2 = [] := by
      simp [thunar_thumbnailer_dequeue, hsplit, hdq]
    have hrp := reply_jobs_found_cancelled r hnd false pre
      { j with cancelled := true } post hpre (by simp [hj]) rfl
    have hstate2 : (thunar_thumbnailer_queue_async_reply
        (thunar_thumbnailer_dequeue s r).1 r hnd false).1.jobs = pre ++ post := by
      simp [thunar_thumbnailer_queue_async_reply, hstate1, hrp]
    have heff2 : (thunar_thumbnailer_queue_async_reply
        (thunar_thumbnailer_dequeue s r).1 r hnd false).2 = [Eff.dequeue hnd] := by
      simp [thunar_thumbnailer_queue_async_reply, hstate1, hrp]
    have hjobs2 : ∀ k ∈ (thunar_thumbnailer_queue_async_reply
        (thunar_thumbnailer_dequeue s r).1 r hnd false).1.jobs, k.request ≠ r := by
      rw [hstate2]
      exact hclean
    have hlast2 : (thunar_thumbnailer_queue_async_reply
        (thunar_thumbnailer_dequeue s r).1 r hnd false).1.last_request =
        s.last_request := by
      simp [thunar_thumbnailer_queue_async_reply, thunar_thumbnailer_dequeue]
    refine ⟨heff1, heff2, hjobs2, ?_⟩
    exact run_ops_no_finished r ops _ hjobs2
      (by rw [hlast2]; exact hr) (by rw [hlast2]; exact hops)
  · intro h0
    have hdq := dequeue_jobs_found_handle s.proxy r pre j post hpre hj h0
    rw [hproxy] at hdq
    have heff1 : (thunar_thumbnailer_dequeue s r).2 = [Eff.dequeue j.handle] := by
      simp [thunar_thumbnailer_dequeue, hproxy, hsplit, hdq]
    have hstate1 : (thunar_thumbnailer_dequeue s r).1.jobs = pre ++ post := by
      simp [thunar_thumbnailer_dequeue, hproxy, hsplit, hdq]
    have hjobs1 : ∀ k ∈ (thunar_thumbnailer_dequeue s r).1.jobs, k.request ≠ r := by
      rw [hstate1]
      exact hclean
    have hlast1 : (thunar_thumbnailer_dequeue s r).1.last_request =
        s.last_request := by
      simp [thunar_thumbnailer_dequeue]
    refine ⟨heff1, hjobs1, ?_⟩
    exact run_ops_no_finished r ops _ hjobs1
      (by rw [hlast1]; exact hr) (by rw [hlast1]; exact hops)

/-- Witness for C2 at a concrete registry: the fresh pending job with request
id 2 is cancelled, the enqueue then completes successfully with handle 9, and
a further Finished(9) notification runs; one Dequeue, no request-finished. -/
theorem cancelled_request_witness :
    (thunar_thumbnailer_dequeue freshState 2).2 = [] ∧
    (thunar_thumbnailer_queue_async_reply
      (thunar_thumbnailer_dequeue freshState 2).1 2 9 false).2 =
      [Eff.dequeue 9] ∧
    Eff.requestFinished 2 ∉
      (run_ops (thunar_thumbnailer_queue_async_reply
        (thunar_thumbnailer_dequeue freshState 2).1 2 9 false).1
        [Op.finish 9]).2 := by
  have h := (cancelled_request_one_dequeue_no_finished freshState 2 9 [] []
    freshJob [Op.finish 9] rfl rfl (by simp) (by simp) rfl (by decide)
    (by decide)).1 rfl
  exact ⟨h.1, h.2.1, h.2.2.2⟩

end ThunarThumbnailer
